import Mathlib

/-!
Verification of the form-definition validator in
`src/llm/payload_generator.py` (`PayloadGenerator._validate_form_structure`)
and its callers (`generate_form_from_prompt`, `FormService.create_and_trigger_form`).

The document is a JSON-like Python value; we embed it as the inductive `Json`.
Python dictionaries are association lists with unique keys in insertion order
(first-match lookup).  Numbers are embedded as integers (no floating point
appears in any check).  Python's cross-type `==` identifications between
`bool` and `int` (`True == 1`) are not modelled; no check compares a bool
with a number.

Python runtime failures that the source can raise (`ValueError` from the
explicit `raise` statements, `KeyError` from an unguarded subscript,
`TypeError` from subscripting or iterating a non-container, `AttributeError`
from calling `.get` on a non-dict) are embedded in `PyErr`, so the validator
is a total function `Json → Except PyErr Unit`.
-/

inductive Json where
  | null
  | bool (b : Bool)
  | num (n : Int)
  | str (s : String)
  | arr (xs : List Json)
  | obj (kvs : List (String × Json))

inductive PyErr where
  | valueError (msg : String)
  | keyError (key : String)
  | typeError (msg : String)
  | attributeError (msg : String)
  deriving BEq, DecidableEq

deriving instance DecidableEq for Except

mutual
/-- Structural equality of JSON-like values: Python `==` on parsed JSON
(the numeric/bool cross-type identifications are not modelled). -/
def jeq : Json → Json → Bool
  | .null, .null => true
  | .bool a, .bool b => a == b
  | .num a, .num b => a == b
  | .str a, .str b => a == b
  | .arr xs, .arr ys => jeqList xs ys
  | .obj kvs, .obj kvs2 => jeqObj kvs kvs2
  | _, _ => false

def jeqList : List Json → List Json → Bool
  | [], [] => true
  | x :: xs, y :: ys => jeq x y && jeqList xs ys
  | _, _ => false

def jeqObj : List (String × Json) → List (String × Json) → Bool
  | [], [] => true
  | (k, v) :: kvs, (k2, v2) :: kvs2 => k == k2 && jeq v v2 && jeqObj kvs kvs2
  | _, _ => false
end

instance : BEq Json := ⟨jeq⟩

/-- First-match association-list lookup, the semantics of a Python dict
whose keys are unique. -/
def jlookup : List (String × Json) → String → Option Json
  | [], _ => none
  | (k, v) :: kvs, key => if k = key then some v else jlookup kvs key

def Json.isObjB : Json → Bool
  | .obj _ => true
  | _ => false

def Json.hasKeyB : Json → String → Bool
  | .obj kvs, k => (jlookup kvs k).isSome
  | _, _ => false

/-- Python's `k in j` for a string literal `k`: key membership for a dict,
element membership for a list, substring test for a string, `TypeError`
otherwise. -/
def pyContains (k : String) : Json → Except PyErr Bool
  | .obj kvs => .ok ((jlookup kvs k).isSome)
  | .arr xs => .ok (xs.contains (Json.str k))
  | .str s => .ok (decide (k.data <:+: s.data))
  | _ => .error (.typeError "argument of type is not iterable")

/-- Python's `j[k]` for a string literal `k`: dict lookup (raising
`KeyError` when the key is absent), `TypeError` on every non-dict value
(string indices of a list or a string are type errors in Python). -/
def getItem : Json → String → Except PyErr Json
  | .obj kvs, k =>
    match jlookup kvs k with
    | some v => .ok v
    | none => .error (.keyError k)
  | _, _ => .error (.typeError "value is not subscriptable by a string")

/-- Python's `j.get(k, dflt)`: total lookup on a dict, `AttributeError`
on every non-dict value. -/
def dictGet : Json → String → Json → Except PyErr Json
  | .obj kvs, k, dflt => .ok ((jlookup kvs k).getD dflt)
  | _, _, _ => .error (.attributeError "object has no attribute get")

/-- Python's `for x in j`: a list yields its elements, a dict its keys,
a string its one-character substrings; anything else raises `TypeError`. -/
def toIter : Json → Except PyErr (List Json)
  | .arr xs => .ok xs
  | .obj kvs => .ok (kvs.map (fun kv => Json.str kv.fst))
  | .str s => .ok (s.data.map (fun c => Json.str (String.singleton c)))
  | _ => .error (.typeError "object is not iterable")

/-- A single-quote character, used when building the exact Python
error-message strings. -/
def sQuote : String := String.singleton (Char.ofNat 39)

mutual
/-- Python `repr` of a JSON-like value (strings quoted), as used by
`str` on lists and dicts. -/
def pyRepr : Json → String
  | .null => "None"
  | .bool true => "True"
  | .bool false => "False"
  | .num n => toString n
  | .str s => sQuote ++ s ++ sQuote
  | .arr xs => "[" ++ pyReprList xs ++ "]"
  | .obj kvs => "\x7b" ++ pyReprObj kvs ++ "\x7d"

def pyReprList : List Json → String
  | [] => ""
  | [x] => pyRepr x
  | x :: y :: xs => pyRepr x ++ ", " ++ pyReprList (y :: xs)

def pyReprObj : List (String × Json) → String
  | [] => ""
  | [(k, v)] => sQuote ++ k ++ sQuote ++ ": " ++ pyRepr v
  | (k, v) :: kv2 :: kvs => sQuote ++ k ++ sQuote ++ ": " ++ pyRepr v ++ ", " ++ pyReprObj (kv2 :: kvs)
end

/-- Python `str()` of a JSON-like value, the conversion applied by
f-string interpolation in the source's error messages. -/
def pyStr : Json → String
  | .null => "None"
  | .bool true => "True"
  | .bool false => "False"
  | .num n => toString n
  | .str s => s
  | .arr xs => "[" ++ pyReprList xs ++ "]"
  | .obj kvs => "\x7b" ++ pyReprObj kvs ++ "\x7d"

/-- Message of `raise ValueError("Response must be a JSON object")`. -/
def msgNotObject : String := "Response must be a JSON object"

/-- Message of `raise ValueError(f"Response must contain '{key}' field")`. -/
def msgMissing (k : String) : String :=
  "Response must contain " ++ sQuote ++ k ++ sQuote ++ " field"

/-- Message of `raise ValueError("formVersion must contain 'formGroups' array")`. -/
def msgNoFormGroups : String :=
  "formVersion must contain " ++ sQuote ++ "formGroups" ++ sQuote ++ " array"

/-- Message of `raise ValueError(f"Section '{group.get('name', 'unnamed')}' missing refKey")`. -/
def msgSecNoRefKey (nm : String) : String :=
  "Section " ++ sQuote ++ nm ++ sQuote ++ " missing refKey"

/-- Message of `raise ValueError("Each formGroup must contain 'fields' array")`. -/
def msgNoFields : String :=
  "Each formGroup must contain " ++ sQuote ++ "fields" ++ sQuote ++ " array"

/-- Message of `raise ValueError(f"Invalid field type: {field['fieldType']}")`. -/
def msgBadType (v : String) : String := "Invalid field type: " ++ v

/-- Message of `raise ValueError(f"Field '{field.get('name', 'unnamed')}' missing refKey")`. -/
def msgFieldNoRefKey (nm : String) : String :=
  "Field " ++ sQuote ++ nm ++ sQuote ++ " missing refKey"

/-- Message of the two-part f-string
`f"Field '{...}' has refKey '{...}' " f"that doesn't match its section refKey '{...}'"`. -/
def msgMismatch (nm frk rk : String) : String :=
  "Field " ++ sQuote ++ nm ++ sQuote ++ " has refKey " ++ sQuote ++ frk ++ sQuote ++
    " that doesn" ++ sQuote ++ "t match its section refKey " ++ sQuote ++ rk ++ sQuote

/-- Message of the two-part f-string
`f"Section '{...}' has mismatched " f"sectionKey in layout configuration"`. -/
def msgLayout (nm : String) : String :=
  "Section " ++ sQuote ++ nm ++ sQuote ++ " has mismatched sectionKey in layout configuration"

/-- `valid_field_types = ['text', 'text_area', 'currency', 'dropdown', 'radio', 'checkbox']`. -/
def validFieldTypes : List Json :=
  [.str "text", .str "text_area", .str "currency", .str "dropdown", .str "radio", .str "checkbox"]

/-- Body of the inner `for field in group["fields"]` loop: the field-type
check (unguarded subscript `field["fieldType"]`), the field `refKey`
presence check, and the field-to-section `refKey` match check, in source
order.  `rk` is the owning section's `group["refKey"]`. -/
def checkField (rk f : Json) : Except PyErr Unit :=
  match getItem f "fieldType" with
  | .error e => .error e
  | .ok ft =>
    if validFieldTypes.contains ft then
      match pyContains "refKey" f with
      | .error e => .error e
      | .ok true =>
        match getItem f "refKey" with
        | .error e => .error e
        | .ok frk =>
          if frk != rk then
            match dictGet f "name" (.str "unnamed") with
            | .error e => .error e
            | .ok nm => .error (.valueError (msgMismatch (pyStr nm) (pyStr frk) (pyStr rk)))
          else .ok ()
      | .ok false =>
        match dictGet f "name" (.str "unnamed") with
        | .error e => .error e
        | .ok nm => .error (.valueError (msgFieldNoRefKey (pyStr nm)))
    else .error (.valueError (msgBadType (pyStr ft)))

/-- The inner field loop, fail-fast over the fields in sequence order. -/
def checkFields (rk : Json) : List Json → Except PyErr Unit
  | [] => .ok ()
  | f :: rest =>
    match checkField rk f with
    | .error e => .error e
    | .ok () => checkFields rk rest

/-- The trailing per-section configuration check:
`if "configurations" in group and "layout" in group["configurations"]:`
`if group["configurations"]["layout"].get("sectionKey") != group["refKey"]: raise ...`.
Note the absent-`sectionKey` case yields Python `None` (embedded `Json.null`),
which is then compared against the section's `refKey`. -/
def layoutCheck (g : Json) : Except PyErr Unit :=
  match pyContains "configurations" g with
  | .error e => .error e
  | .ok false => .ok ()
  | .ok true =>
    match getItem g "configurations" with
    | .error e => .error e
    | .ok cfg =>
      match pyContains "layout" cfg with
      | .error e => .error e
      | .ok false => .ok ()
      | .ok true =>
        match getItem cfg "layout" with
        | .error e => .error e
        | .ok lay =>
          match dictGet lay "sectionKey" Json.null with
          | .error e => .error e
          | .ok sk =>
            match getItem g "refKey" with
            | .error e => .error e
            | .ok rk =>
              if sk != rk then
                match dictGet g "name" (.str "unnamed") with
                | .error e => .error e
                | .ok nm => .error (.valueError (msgLayout (pyStr nm)))
              else .ok ()

/-- Body of the outer `for group in ...` loop: section `refKey` presence,
`fields` presence, the field loop, then the layout check, in source order.
On success it returns the section's `refKey`, which the caller records in
the `section_ref_keys` working set (the set is written, never read). -/
def checkGroupCore (g : Json) : Except PyErr Json :=
  match pyContains "refKey" g with
  | .error e => .error e
  | .ok false =>
    match dictGet g "name" (.str "unnamed") with
    | .error e => .error e
    | .ok nm => .error (.valueError (msgSecNoRefKey (pyStr nm)))
  | .ok true =>
    match getItem g "refKey" with
    | .error e => .error e
    | .ok rk =>
      match pyContains "fields" g with
      | .error e => .error e
      | .ok false => .error (.valueError msgNoFields)
      | .ok true =>
        match getItem g "fields" with
        | .error e => .error e
        | .ok fsJ =>
          match toIter fsJ with
          | .error e => .error e
          | .ok fs =>
            match checkFields rk fs with
            | .error e => .error e
            | .ok () =>
              match layoutCheck g with
              | .error e => .error e
              | .ok () => .ok rk

/-- `section_ref_keys.add(...)`: set insertion, modelled on a duplicate-free
list. -/
def setAdd (seen : List Json) (x : Json) : List Json :=
  if seen.contains x then seen else seen ++ [x]

/-- The outer section loop, threading the `section_ref_keys` working set.
The set is only ever inserted into; no check reads it. -/
def checkGroups (seen : List Json) : List Json → Except PyErr (List Json)
  | [] => .ok seen
  | g :: rest =>
    match checkGroupCore g with
    | .error e => .error e
    | .ok rk => checkGroups (setAdd seen rk) rest

/-- `PayloadGenerator._validate_form_structure`, translated check for check:
the top-level mapping check, the `required_keys = ["form", "formVersion"]`
loop, the `formGroups` membership check, then the section loop started with
a fresh empty `section_ref_keys` set. -/
def _validate_form_structure (d : Json) : Except PyErr Unit :=
  if d.isObjB then
    if d.hasKeyB "form" then
      if d.hasKeyB "formVersion" then
        match getItem d "formVersion" with
        | .error e => .error e
        | .ok fv =>
          match pyContains "formGroups" fv with
          | .error e => .error e
          | .ok false => .error (.valueError msgNoFormGroups)
          | .ok true =>
            match getItem fv "formGroups" with
            | .error e => .error e
            | .ok fgJ =>
              match toIter fgJ with
              | .error e => .error e
              | .ok gs =>
                match checkGroups [] gs with
                | .error e => .error e
                | .ok _ => .ok ()
      else .error (.valueError (msgMissing "formVersion"))
    else .error (.valueError (msgMissing "form"))
  else .error (.valueError msgNotObject)

/-- `PayloadGenerator.generate_form_from_prompt`, from the point where the
external model's parsed response `d` is in hand: validate the structure,
then return the very same object. -/
def generate_form_from_prompt (d : Json) : Except PyErr Json :=
  match _validate_form_structure d with
  | .error e => .error e
  | .ok () => .ok d

/-- Two consecutive validations of the same document, each one a fresh call
of `_validate_form_structure` (each call builds its own empty
`section_ref_keys` set, exactly as the source constructs `set()` locally). -/
def validateTwice (d : Json) : Except PyErr Unit × Except PyErr Unit :=
  (_validate_form_structure d, _validate_form_structure d)

/-!
Spec side: the catalogue of violations named by the specification's ordered
check list (§4.1 of the spec), each given an independent decidable predicate
over the document and a position in the fail-fast order.  The uniqueness
check on section `refKey`s is absent from this catalogue on purpose: the
source records the keys but never compares them.
-/

inductive V where
  | notObject
  | missingForm
  | missingFormVersion
  | missingFormGroups
  | secNoRefKey (i : Nat)
  | secNoFields (i : Nat)
  | badFieldType (i j : Nat)
  | fieldNoRefKey (i j : Nat)
  | refKeyMismatch (i j : Nat)
  | layoutBad (i : Nat)
  deriving DecidableEq

/-- Position of a violation in the fail-fast order: document-level checks
first, then section `i`'s checks in section order, inside a section the
`refKey` presence check, the `fields` presence check, field `j`'s three
checks in field order, and finally the layout check. -/
def pos : V → Nat × Nat × Nat × Nat
  | .notObject => (0, 0, 0, 0)
  | .missingForm => (1, 0, 0, 0)
  | .missingFormVersion => (2, 0, 0, 0)
  | .missingFormGroups => (3, 0, 0, 0)
  | .secNoRefKey i => (4, i, 0, 0)
  | .secNoFields i => (4, i, 1, 0)
  | .badFieldType i j => (4, i, 2, 3 * j)
  | .fieldNoRefKey i j => (4, i, 2, 3 * j + 1)
  | .refKeyMismatch i j => (4, i, 2, 3 * j + 2)
  | .layoutBad i => (4, i, 3, 0)

/-- Strict lexicographic order on violation positions. -/
def posLt : Nat × Nat × Nat × Nat → Nat × Nat × Nat × Nat → Prop
  | (a, b, c, d), (a2, b2, c2, d2) =>
    a < a2 ∨ (a = a2 ∧ (b < b2 ∨ (b = b2 ∧ (c < c2 ∨ (c = c2 ∧ d < d2)))))

/-- The list of sections reached by the validator's traversal, when the
document-level structure admits one. -/
def sectionsOf (d : Json) : Option (List Json) :=
  if d.isObjB then
    match getItem d "formVersion" with
    | .ok fv =>
      match pyContains "formGroups" fv with
      | .ok true =>
        match getItem fv "formGroups" with
        | .ok fgJ =>
          match toIter fgJ with
          | .ok gs => some gs
          | .error _ => none
        | .error _ => none
      | _ => none
    | .error _ => none
  else none

def groupAt (d : Json) (i : Nat) : Option Json :=
  (sectionsOf d).bind (fun gs => gs[i]?)

def fieldsOfGroup (g : Json) : Option (List Json) :=
  match getItem g "fields" with
  | .ok fsJ =>
    match toIter fsJ with
    | .ok fs => some fs
    | .error _ => none
  | .error _ => none

def fieldAt (d : Json) (i j : Nat) : Option Json :=
  (groupAt d i).bind (fun g => (fieldsOfGroup g).bind (fun fs => fs[j]?))

/-- `group.get('name', 'unnamed')` of a dict, used when reporting. -/
def gname (g : Json) : Json :=
  match g with
  | .obj kvs => (jlookup kvs "name").getD (.str "unnamed")
  | _ => .str "unnamed"

/-- The field-type check fails on field `f`: its `fieldType` is absent
(the source's unguarded subscript) or not one of the six allowed values. -/
def fBadB (f : Json) : Bool :=
  match getItem f "fieldType" with
  | .ok ft => ! validFieldTypes.contains ft
  | .error _ => true

def fNoRefB (f : Json) : Bool := ! f.hasKeyB "refKey"

def fMismatchB (rk f : Json) : Bool :=
  match getItem f "refKey" with
  | .ok frk => frk != rk
  | .error _ => false

def gNoRefB (g : Json) : Bool := ! g.hasKeyB "refKey"

def gNoFieldsB (g : Json) : Bool := ! g.hasKeyB "fields"

/-- The layout self-consistency check fails on section `g`: a
`configurations.layout` object is reachable and its `sectionKey`
(defaulting to `None` when absent) differs from the section's `refKey`. -/
def gLayoutBadB (g : Json) : Bool :=
  match getItem g "refKey", getItem g "configurations" with
  | .ok rk, .ok cfg =>
    match pyContains "layout" cfg with
    | .ok true =>
      match getItem cfg "layout" with
      | .ok lay =>
        match dictGet lay "sectionKey" Json.null with
        | .ok sk => sk != rk
        | .error _ => false
      | .error _ => false
    | _ => false
  | _, _ => false

/-- Each catalogued violation as an independent decidable predicate of the
document, guarded only by the structural context needed to state it. -/
def HoldsB (d : Json) : V → Bool
  | .notObject => ! d.isObjB
  | .missingForm => d.isObjB && ! d.hasKeyB "form"
  | .missingFormVersion => d.isObjB && ! d.hasKeyB "formVersion"
  | .missingFormGroups =>
    d.isObjB &&
      (match getItem d "formVersion" with
       | .ok fv =>
         match pyContains "formGroups" fv with
         | .ok b => ! b
         | .error _ => false
       | .error _ => false)
  | .secNoRefKey i =>
    match groupAt d i with
    | some g => g.isObjB && gNoRefB g
    | none => false
  | .secNoFields i =>
    match groupAt d i with
    | some g => g.isObjB && gNoFieldsB g
    | none => false
  | .badFieldType i j =>
    match fieldAt d i j with
    | some f => f.isObjB && fBadB f
    | none => false
  | .fieldNoRefKey i j =>
    match fieldAt d i j with
    | some f => f.isObjB && fNoRefB f
    | none => false
  | .refKeyMismatch i j =>
    match groupAt d i, fieldAt d i j with
    | some g, some f =>
      (match getItem g "refKey" with
       | .ok rk => fMismatchB rk f
       | .error _ => false)
    | _, _ => false
  | .layoutBad i =>
    match groupAt d i with
    | some g => gLayoutBadB g
    | none => false

/-- The exact error the source raises for a catalogued violation, computed
from the document (name fallbacks and offending values included). -/
def vErr (d : Json) : V → Option PyErr
  | .notObject => some (.valueError msgNotObject)
  | .missingForm => some (.valueError (msgMissing "form"))
  | .missingFormVersion => some (.valueError (msgMissing "formVersion"))
  | .missingFormGroups => some (.valueError msgNoFormGroups)
  | .secNoRefKey i =>
    (groupAt d i).map (fun g => .valueError (msgSecNoRefKey (pyStr (gname g))))
  | .secNoFields _ => some (.valueError msgNoFields)
  | .badFieldType i j =>
    (fieldAt d i j).map (fun f =>
      match getItem f "fieldType" with
      | .ok ft => .valueError (msgBadType (pyStr ft))
      | .error _ => .keyError "fieldType")
  | .fieldNoRefKey i j =>
    (fieldAt d i j).map (fun f => .valueError (msgFieldNoRefKey (pyStr (gname f))))
  | .refKeyMismatch i j =>
    match groupAt d i, fieldAt d i j with
    | some g, some f =>
      (match getItem g "refKey", getItem f "refKey" with
       | .ok rk, .ok frk =>
         some (.valueError (msgMismatch (pyStr (gname f)) (pyStr frk) (pyStr rk)))
       | _, _ => none)
    | _, _ => none
  | .layoutBad i =>
    (groupAt d i).map (fun g => .valueError (msgLayout (pyStr (gname g))))

/-- `sub` occurs as a contiguous substring of `s`. -/
def strContainsB (s sub : String) : Bool := decide (sub.data <:+: s.data)

/-! Concrete documents used as witnesses and counterexamples. -/

/-- The spec's P1 document: one section `s1` with one `text` field `s1`. -/
def p1doc : Json :=
  .obj [("form", .obj []),
        ("formVersion", .obj [("formGroups", .arr [
          .obj [("refKey", .str "s1"),
                ("fields", .arr [.obj [("fieldType", .str "text"), ("refKey", .str "s1")]])]])])]

/-- Two sections sharing the refKey `s1`, otherwise well-formed. -/
def dupDoc : Json :=
  .obj [("form", .obj []),
        ("formVersion", .obj [("formGroups", .arr [
          .obj [("refKey", .str "s1"), ("fields", .arr [])],
          .obj [("refKey", .str "s1"), ("fields", .arr [])]])])]

/-- Otherwise well-formed document whose single field lacks `fieldType`. -/
def noTypeDoc : Json :=
  .obj [("form", .obj []),
        ("formVersion", .obj [("formGroups", .arr [
          .obj [("refKey", .str "s1"),
                ("fields", .arr [.obj [("name", .str "f1"), ("refKey", .str "s1")]])]])])]

/-- Section `a` carrying a `configurations.layout` object with no
`sectionKey`, otherwise well-formed. -/
def layoutNoKeyDoc : Json :=
  .obj [("form", .obj []),
        ("formVersion", .obj [("formGroups", .arr [
          .obj [("refKey", .str "a"),
                ("fields", .arr []),
                ("configurations", .obj [("layout", .obj [])])]])])]

/-- Section `a` whose `configurations.layout.sectionKey` is `z`. -/
def layoutWrongSection : Json :=
  .obj [("refKey", .str "a"), ("fields", .arr []),
        ("configurations", .obj [("layout", .obj [("sectionKey", .str "z")])])]

/-- Document holding `layoutWrongSection`. -/
def layoutWrongKeyDoc : Json :=
  .obj [("form", .obj []), ("formVersion", .obj [("formGroups", .arr [layoutWrongSection])])]

/-- A mapping with `form` but no `formVersion`. -/
def noVersionDoc : Json := .obj [("form", .obj [])]

/-- A `text` field whose refKey `b` will not match its section. -/
def mmField : Json := .obj [("fieldType", .str "text"), ("refKey", .str "b")]

/-- Section `a` containing `mmField` (refKey `b`). -/
def mmSection : Json := .obj [("refKey", .str "a"), ("fields", .arr [mmField])]

/-- Document whose earliest violation is the refKey mismatch `b` vs `a`. -/
def mismatchDoc : Json :=
  .obj [("form", .obj []), ("formVersion", .obj [("formGroups", .arr [mmSection])])]

/-- A field of type `date`, not among the six allowed values. -/
def dateField : Json := .obj [("fieldType", .str "date"), ("refKey", .str "s1")]

/-- Section `s1` containing `dateField`. -/
def dateSection : Json := .obj [("refKey", .str "s1"), ("fields", .arr [dateField])]

/-- Document whose earliest violation is the invalid field type `date`. -/
def dateDoc : Json :=
  .obj [("form", .obj []), ("formVersion", .obj [("formGroups", .arr [dateSection])])]

/-! Inversion lemmas for the embedded Python primitives. -/

lemma pyContains_of_isObj (k : String) {g : Json} (h : g.isObjB = true) :
    pyContains k g = .ok (g.hasKeyB k) := by
  cases g <;> simp_all [Json.isObjB, pyContains, Json.hasKeyB]

lemma pyContains_err_shape {k : String} {j : Json} {e : PyErr}
    (h : pyContains k j = .error e) : e = .typeError "argument of type is not iterable" := by
  cases j <;> simp_all [pyContains]

lemma getItem_err_shape {j : Json} {k : String} {e : PyErr}
    (h : getItem j k = .error e) :
    e = .keyError k ∨ e = .typeError "value is not subscriptable by a string" := by
  cases j <;> simp_all [getItem]
  rename_i kvs
  cases hl : jlookup kvs k <;> simp_all

lemma toIter_err_shape {j : Json} {e : PyErr} (h : toIter j = .error e) :
    e = .typeError "object is not iterable" := by
  cases j <;> simp_all [toIter]

lemma getItem_isObj {j : Json} {k : String} {v : Json} (h : getItem j k = .ok v) :
    j.isObjB = true := by
  cases j <;> simp_all [getItem, Json.isObjB]

lemma getItem_hasKey {j : Json} {k : String} {v : Json} (h : getItem j k = .ok v) :
    j.hasKeyB k = true := by
  cases j <;> simp_all [getItem, Json.hasKeyB]
  rename_i kvs
  cases hl : jlookup kvs k <;> simp_all

lemma getItem_of_hasKey {j : Json} {k : String} (h : j.hasKeyB k = true) :
    ∃ v, getItem j k = .ok v := by
  cases j <;> simp_all [Json.hasKeyB, getItem]
  rename_i kvs
  cases hl : jlookup kvs k <;> simp_all

lemma dictGet_isObj {j : Json} {k : String} {dflt v : Json}
    (h : dictGet j k dflt = .ok v) : j.isObjB = true := by
  cases j <;> simp_all [dictGet, Json.isObjB]

lemma dictGet_name_eq {g : Json} (h : g.isObjB = true) :
    dictGet g "name" (.str "unnamed") = .ok (gname g) := by
  cases g <;> simp_all [dictGet, gname, Json.isObjB]

lemma dictGet_err_shape {j : Json} {k : String} {dflt : Json} {e : PyErr}
    (h : dictGet j k dflt = .error e) : e = .attributeError "object has no attribute get" := by
  cases j <;> simp_all [dictGet]
lemma checkField_ok_inv {rk f : Json} (h : checkField rk f = .ok ()) :
    f.isObjB = true ∧ fBadB f = false ∧ fNoRefB f = false ∧ fMismatchB rk f = false := by
  unfold checkField at h
  split at h
  next e heq => simp at h
  next ft hft =>
    split at h
    next hv =>
      split at h
      next e heq => simp at h
      next hc =>
        split at h
        next e heq => simp at h
        next frk hfr =>
          split at h
          next hne => split at h <;> simp at h
          next hne =>
            have hobj : f.isObjB = true := getItem_isObj hft
            have hkey : f.hasKeyB "refKey" = true := getItem_hasKey hfr
            refine ⟨hobj, ?_, ?_, ?_⟩
            · simp [fBadB, hft, hv]
            · simp [fNoRefB, hkey]
            · simp only [fMismatchB, hfr]
              simpa using hne
      next hc => split at h <;> simp at h
    next hv => simp at h

lemma checkField_err_inv {rk f : Json} {m : String}
    (h : checkField rk f = .error (.valueError m)) :
    f.isObjB = true ∧
    ((fBadB f = true ∧ ∃ ft, getItem f "fieldType" = .ok ft ∧ m = msgBadType (pyStr ft)) ∨
     (fBadB f = false ∧ fNoRefB f = true ∧ m = msgFieldNoRefKey (pyStr (gname f))) ∨
     (fBadB f = false ∧ fNoRefB f = false ∧ fMismatchB rk f = true ∧
       ∃ frk, getItem f "refKey" = .ok frk ∧
         m = msgMismatch (pyStr (gname f)) (pyStr frk) (pyStr rk))) := by
  unfold checkField at h
  split at h
  next e heq =>
    rcases getItem_err_shape heq with he | he <;> simp [he] at h
  next ft hft =>
    have hobj : f.isObjB = true := getItem_isObj hft
    split at h
    next hv =>
      split at h
      next e heq =>
        have := pyContains_err_shape heq
        simp [this] at h
      next hc =>
        rw [pyContains_of_isObj _ hobj] at hc
        split at h
        next e heq =>
          rcases getItem_err_shape heq with he | he <;> simp [he] at h
        next frk hfr =>
          split at h
          next hne =>
            rw [dictGet_name_eq hobj] at h
            simp only [Except.error.injEq, PyErr.valueError.injEq] at h
            refine ⟨hobj, Or.inr (Or.inr ⟨?_, ?_, ?_, frk, hfr, h.symm⟩)⟩
            · simp [fBadB, hft, hv]
            · simp only [Except.ok.injEq] at hc
              simp [fNoRefB, hc]
            · simp [fMismatchB, hfr, hne]
          next hne => simp at h
      next hc =>
        rw [pyContains_of_isObj _ hobj] at hc
        rw [dictGet_name_eq hobj] at h
        simp only [Except.error.injEq, PyErr.valueError.injEq] at h
        refine ⟨hobj, Or.inr (Or.inl ⟨?_, ?_, h.symm⟩)⟩
        · simp [fBadB, hft, hv]
        · simp only [Except.ok.injEq] at hc
          simp [fNoRefB, hc]
    next hv =>
      simp only [Except.error.injEq, PyErr.valueError.injEq] at h
      refine ⟨hobj, Or.inl ⟨?_, ft, hft, h.symm⟩⟩
      simp only [fBadB, hft]
      simpa using hv

lemma checkFields_ok_inv {rk : Json} {fs : List Json} (h : checkFields rk fs = .ok ()) :
    ∀ (j : Nat) (f : Json), fs[j]? = some f → checkField rk f = .ok () := by
  induction fs with
  | nil => intro j f hj; simp at hj
  | cons f0 rest ih =>
    intro j f hj
    unfold checkFields at h
    cases hc : checkField rk f0 with
    | error e => rw [hc] at h; simp at h
    | ok u =>
      cases u
      rw [hc] at h
      simp only at h
      cases j with
      | zero => simp at hj; rw [← hj]; exact hc
      | succ j2 => exact ih h j2 f (by simpa using hj)

lemma checkFields_err_inv {rk : Json} {fs : List Json} {e : PyErr}
    (h : checkFields rk fs = .error e) :
    ∃ j f, fs[j]? = some f ∧
      (∀ (j2 : Nat) (f2 : Json), j2 < j → fs[j2]? = some f2 → checkField rk f2 = .ok ()) ∧
      checkField rk f = .error e := by
  induction fs with
  | nil => simp [checkFields] at h
  | cons f0 rest ih =>
    unfold checkFields at h
    cases hc : checkField rk f0 with
    | error e2 =>
      rw [hc] at h
      simp only [Except.error.injEq] at h
      refine ⟨0, f0, by simp, ?_, by rw [hc, h]⟩
      intro j2 f2 hj2 _
      omega
    | ok u =>
      cases u
      rw [hc] at h
      simp only at h
      obtain ⟨j, f, hj, hclean, herr⟩ := ih h
      refine ⟨j + 1, f, by simpa using hj, ?_, herr⟩
      intro j2 f2 hj2 hget
      cases j2 with
      | zero => simp at hget; rw [← hget]; exact hc
      | succ j3 => exact hclean j3 f2 (by omega) (by simpa using hget)

lemma layoutCheck_ok_inv {g : Json} (h : layoutCheck g = .ok ()) : gLayoutBadB g = false := by
  unfold layoutCheck at h
  split at h
  next e heq => simp at h
  next hc =>
    cases hrk : getItem g "refKey" with
    | error e => simp [gLayoutBadB, hrk]
    | ok rk =>
      have hobj : g.isObjB = true := getItem_isObj hrk
      rw [pyContains_of_isObj _ hobj] at hc
      simp only [Except.ok.injEq] at hc
      cases hcfg : getItem g "configurations" with
      | error e => simp [gLayoutBadB, hrk, hcfg]
      | ok cfg => exact absurd (getItem_hasKey hcfg) (by simp [← hc])
  next hc =>
    split at h
    next e heq => simp at h
    next cfg hcfg =>
      split at h
      next e heq => simp at h
      next hlay =>
        cases hrk : getItem g "refKey" with
        | error e => simp [gLayoutBadB, hrk]
        | ok rk => simp [gLayoutBadB, hrk, hcfg, hlay]
      next hlay =>
        split at h
        next e heq => simp at h
        next lay hl =>
          split at h
          next e heq => simp at h
          next sk hsk =>
            split at h
            next e heq => simp at h
            next rk hrk =>
              split at h
              next hne => split at h <;> simp at h
              next hne =>
                simp only [gLayoutBadB, hrk, hcfg, hlay, hl, hsk]
                simpa using hne

lemma layoutCheck_err_inv {g : Json} {m : String}
    (h : layoutCheck g = .error (.valueError m)) :
    g.isObjB = true ∧ gLayoutBadB g = true ∧ m = msgLayout (pyStr (gname g)) := by
  unfold layoutCheck at h
  split at h
  next e heq =>
    have := pyContains_err_shape heq
    simp [this] at h
  next hc => simp at h
  next hc =>
    split at h
    next e heq =>
      rcases getItem_err_shape heq with he | he <;> simp [he] at h
    next cfg hcfg =>
      have hobj : g.isObjB = true := getItem_isObj hcfg
      split at h
      next e heq =>
        have := pyContains_err_shape heq
        simp [this] at h
      next hlay => simp at h
      next hlay =>
        split at h
        next e heq =>
          rcases getItem_err_shape heq with he | he <;> simp [he] at h
        next lay hl =>
          split at h
          next e heq =>
            have := dictGet_err_shape heq
            simp [this] at h
          next sk hsk =>
            split at h
            next e heq =>
              rcases getItem_err_shape heq with he | he <;> simp [he] at h
            next rk hrk =>
              split at h
              next hne =>
                rw [dictGet_name_eq hobj] at h
                simp only [Except.error.injEq, PyErr.valueError.injEq] at h
                refine ⟨hobj, ?_, h.symm⟩
                simp only [gLayoutBadB, hrk, hcfg, hlay, hl, hsk]
                simpa using hne
              next hne => simp at h

lemma fieldsOfGroup_eq {g fsJ : Json} {fs : List Json}
    (h1 : getItem g "fields" = .ok fsJ) (h2 : toIter fsJ = .ok fs) :
    fieldsOfGroup g = some fs := by
  simp [fieldsOfGroup, h1, h2]

lemma checkGroupCore_ok_inv {g rk : Json} (h : checkGroupCore g = .ok rk) :
    g.isObjB = true ∧ getItem g "refKey" = .ok rk ∧ gNoRefB g = false ∧ gNoFieldsB g = false ∧
    (∃ fs, fieldsOfGroup g = some fs ∧ checkFields rk fs = .ok ()) ∧ layoutCheck g = .ok () := by
  unfold checkGroupCore at h
  split at h
  next e heq => simp at h
  next hc => split at h <;> simp at h
  next hc =>
    split at h
    next e heq => simp at h
    next rk0 hrk =>
      have hobj : g.isObjB = true := getItem_isObj hrk
      rw [pyContains_of_isObj _ hobj] at hc
      simp only [Except.ok.injEq] at hc
      split at h
      next e heq => simp at h
      next hf => simp at h
      next hf =>
        rw [pyContains_of_isObj _ hobj] at hf
        simp only [Except.ok.injEq] at hf
        split at h
        next e heq => simp at h
        next fsJ hfs =>
          split at h
          next e heq => simp at h
          next fs hit =>
            split at h
            next e heq => simp at h
            next hcf =>
              split at h
              next e heq => simp at h
              next hlc =>
                simp only [Except.ok.injEq] at h
                subst h
                refine ⟨hobj, hrk, ?_, ?_, ⟨fs, fieldsOfGroup_eq hfs hit, hcf⟩, hlc⟩
                · simp [gNoRefB, ← hc]
                · simp [gNoFieldsB, ← hf]

lemma checkGroupCore_err_inv {g : Json} {m : String}
    (h : checkGroupCore g = .error (.valueError m)) :
    g.isObjB = true ∧
    ((gNoRefB g = true ∧ m = msgSecNoRefKey (pyStr (gname g))) ∨
     (gNoRefB g = false ∧ gNoFieldsB g = true ∧ m = msgNoFields) ∨
     (gNoRefB g = false ∧ gNoFieldsB g = false ∧ ∃ rk fs, getItem g "refKey" = .ok rk ∧
        fieldsOfGroup g = some fs ∧ checkFields rk fs = .error (.valueError m)) ∨
     (gNoRefB g = false ∧ gNoFieldsB g = false ∧ ∃ rk fs, getItem g "refKey" = .ok rk ∧
        fieldsOfGroup g = some fs ∧ checkFields rk fs = .ok () ∧
        layoutCheck g = .error (.valueError m))) := by
  unfold checkGroupCore at h
  split at h
  next e heq =>
    have := pyContains_err_shape heq
    simp [this] at h
  next hc =>
    split at h
    next e heq =>
      have := dictGet_err_shape heq
      simp [this] at h
    next nm hnm =>
      have hobj : g.isObjB = true := dictGet_isObj hnm
      rw [dictGet_name_eq hobj] at hnm
      simp only [Except.ok.injEq] at hnm
      rw [pyContains_of_isObj _ hobj] at hc
      simp only [Except.ok.injEq] at hc
      simp only [Except.error.injEq, PyErr.valueError.injEq] at h
      exact ⟨hobj, Or.inl ⟨by simp [gNoRefB, ← hc], by rw [← h, hnm]⟩⟩
  next hc =>
    split at h
    next e heq =>
      rcases getItem_err_shape heq with he | he <;> simp [he] at h
    next rk0 hrk =>
      have hobj : g.isObjB = true := getItem_isObj hrk
      rw [pyContains_of_isObj _ hobj] at hc
      simp only [Except.ok.injEq] at hc
      have hnoref : gNoRefB g = false := by simp [gNoRefB, ← hc]
      split at h
      next e heq =>
        have := pyContains_err_shape heq
        simp [this] at h
      next hf =>
        rw [pyContains_of_isObj _ hobj] at hf
        simp only [Except.ok.injEq] at hf
        simp only [Except.error.injEq, PyErr.valueError.injEq] at h
        exact ⟨hobj, Or.inr (Or.inl ⟨hnoref, by simp [gNoFieldsB, ← hf], h.symm⟩)⟩
      next hf =>
        rw [pyContains_of_isObj _ hobj] at hf
        simp only [Except.ok.injEq] at hf
        have hnofields : gNoFieldsB g = false := by simp [gNoFieldsB, ← hf]
        split at h
        next e heq =>
          rcases getItem_err_shape heq with he | he <;> simp [he] at h
        next fsJ hfs =>
          split at h
          next e heq =>
            have := toIter_err_shape heq
            simp [this] at h
          next fs hit =>
            split at h
            next e heq =>
              simp only [Except.error.injEq] at h
              subst h
              exact ⟨hobj, Or.inr (Or.inr (Or.inl
                ⟨hnoref, hnofields, rk0, fs, hrk, fieldsOfGroup_eq hfs hit, heq⟩))⟩
            next hcf =>
              split at h
              next e heq =>
                simp only [Except.error.injEq] at h
                subst h
                exact ⟨hobj, Or.inr (Or.inr (Or.inr
                  ⟨hnoref, hnofields, rk0, fs, hrk, fieldsOfGroup_eq hfs hit, hcf, heq⟩))⟩
              next hlc => simp at h

lemma checkGroups_ok_inv {seen : List Json} {gs : List Json} {s : List Json}
    (h : checkGroups seen gs = .ok s) :
    ∀ (i : Nat) (g : Json), gs[i]? = some g → ∃ rk, checkGroupCore g = .ok rk := by
  induction gs generalizing seen with
  | nil => intro i g hi; simp at hi
  | cons g0 rest ih =>
    intro i g hi
    unfold checkGroups at h
    cases hc : checkGroupCore g0 with
    | error e => rw [hc] at h; simp at h
    | ok rk0 =>
      rw [hc] at h
      simp only at h
      cases i with
      | zero => simp at hi; rw [← hi]; exact ⟨rk0, hc⟩
      | succ i2 => exact ih h i2 g (by simpa using hi)

lemma checkGroups_err_inv {seen : List Json} {gs : List Json} {e : PyErr}
    (h : checkGroups seen gs = .error e) :
    ∃ (i : Nat) (g : Json), gs[i]? = some g ∧
      (∀ (i2 : Nat) (g2 : Json), i2 < i → gs[i2]? = some g2 → ∃ rk, checkGroupCore g2 = .ok rk) ∧
      checkGroupCore g = .error e := by
  induction gs generalizing seen with
  | nil => simp [checkGroups] at h
  | cons g0 rest ih =>
    unfold checkGroups at h
    cases hc : checkGroupCore g0 with
    | error e2 =>
      rw [hc] at h
      simp only [Except.error.injEq] at h
      refine ⟨0, g0, by simp, ?_, by rw [hc, h]⟩
      intro i2 g2 hi2 _
      omega
    | ok rk0 =>
      rw [hc] at h
      simp only at h
      obtain ⟨i, g, hi, hclean, herr⟩ := ih h
      refine ⟨i + 1, g, by simpa using hi, ?_, herr⟩
      intro i2 g2 hi2 hget
      cases i2 with
      | zero => simp at hget; rw [← hget]; exact ⟨rk0, hc⟩
      | succ i3 => exact hclean i3 g2 (by omega) (by simpa using hget)

lemma sectionsOf_eq {d fv fgJ : Json} {gs : List Json} (h1 : d.isObjB = true)
    (h2 : getItem d "formVersion" = .ok fv) (h3 : pyContains "formGroups" fv = .ok true)
    (h4 : getItem fv "formGroups" = .ok fgJ) (h5 : toIter fgJ = .ok gs) :
    sectionsOf d = some gs := by
  simp [sectionsOf, h1, h2, h3, h4, h5]

lemma clean_section_no_viol {d : Json} {gs : List Json} {g : Json} {i : Nat}
    (hsec : sectionsOf d = some gs) (hg : gs[i]? = some g)
    (hok : ∃ rk, checkGroupCore g = .ok rk) :
    HoldsB d (.secNoRefKey i) = false ∧ HoldsB d (.secNoFields i) = false ∧
    HoldsB d (.layoutBad i) = false ∧
    (∀ j : Nat, HoldsB d (.badFieldType i j) = false ∧ HoldsB d (.fieldNoRefKey i j) = false ∧
      HoldsB d (.refKeyMismatch i j) = false) := by
  obtain ⟨rk, hok⟩ := hok
  obtain ⟨hobj, hrk, hnoref, hnofields, ⟨fs, hfs, hcf⟩, hlc⟩ := checkGroupCore_ok_inv hok
  have hga : groupAt d i = some g := by simp [groupAt, hsec, hg]
  refine ⟨?_, ?_, ?_, ?_⟩
  · simp [HoldsB, hga, hnoref]
  · simp [HoldsB, hga, hnofields]
  · simp [HoldsB, hga, layoutCheck_ok_inv hlc]
  · intro j
    cases hf : fs[j]? with
    | none =>
      have hfa : fieldAt d i j = none := by simp [fieldAt, hga, hfs, hf]
      exact ⟨by simp [HoldsB, hfa], by simp [HoldsB, hfa], by simp [HoldsB, hga, hfa]⟩
    | some f =>
      obtain ⟨hfobj, hbad, hnr, hmm⟩ := checkField_ok_inv (checkFields_ok_inv hcf j f hf)
      have hfa : fieldAt d i j = some f := by simp [fieldAt, hga, hfs, hf]
      refine ⟨?_, ?_, ?_⟩
      · simp [HoldsB, hfa, hbad]
      · simp [HoldsB, hfa, hnr]
      · simp [HoldsB, hga, hfa, hrk, hmm]

lemma validate_ok_no_viol {d : Json} (h : _validate_form_structure d = .ok ()) :
    ∀ v, HoldsB d v = false := by
  unfold _validate_form_structure at h
  split at h
  next hobj =>
    split at h
    next hform =>
      split at h
      next hfver =>
        split at h
        next e heq => simp at h
        next fv hfv =>
          split at h
          next e heq => simp at h
          next hcont => simp at h
          next hcont =>
            split at h
            next e heq => simp at h
            next fgJ hfg =>
              split at h
              next e heq => simp at h
              next gs hit =>
                split at h
                next e heq => simp at h
                next s hcg =>
                  have hsec := sectionsOf_eq hobj hfv hcont hfg hit
                  intro v
                  cases v with
                  | notObject => simp [HoldsB, hobj]
                  | missingForm => simp [HoldsB, hform]
                  | missingFormVersion => simp [HoldsB, hfver]
                  | missingFormGroups => simp [HoldsB, hfv, hcont]
                  | secNoRefKey i =>
                    cases hg : gs[i]? with
                    | none => simp [HoldsB, groupAt, hsec, hg]
                    | some g =>
                      exact (clean_section_no_viol hsec hg (checkGroups_ok_inv hcg i g hg)).1
                  | secNoFields i =>
                    cases hg : gs[i]? with
                    | none => simp [HoldsB, groupAt, hsec, hg]
                    | some g =>
                      exact (clean_section_no_viol hsec hg (checkGroups_ok_inv hcg i g hg)).2.1
                  | layoutBad i =>
                    cases hg : gs[i]? with
                    | none => simp [HoldsB, groupAt, hsec, hg]
                    | some g =>
                      exact (clean_section_no_viol hsec hg (checkGroups_ok_inv hcg i g hg)).2.2.1
                  | badFieldType i j =>
                    cases hg : gs[i]? with
                    | none => simp [HoldsB, fieldAt, groupAt, hsec, hg]
                    | some g =>
                      exact ((clean_section_no_viol hsec hg
                        (checkGroups_ok_inv hcg i g hg)).2.2.2 j).1
                  | fieldNoRefKey i j =>
                    cases hg : gs[i]? with
                    | none => simp [HoldsB, fieldAt, groupAt, hsec, hg]
                    | some g =>
                      exact ((clean_section_no_viol hsec hg
                        (checkGroups_ok_inv hcg i g hg)).2.2.2 j).2.1
                  | refKeyMismatch i j =>
                    cases hg : gs[i]? with
                    | none => simp [HoldsB, fieldAt, groupAt, hsec, hg]
                    | some g =>
                      exact ((clean_section_no_viol hsec hg
                        (checkGroups_ok_inv hcg i g hg)).2.2.2 j).2.2
      next hfver => simp at h
    next hform => simp at h
  next hobj => simp at h

/-- Section index carried by a section-level violation. -/
def secIdx : V → Option Nat
  | .secNoRefKey i => some i
  | .secNoFields i => some i
  | .badFieldType i _ => some i
  | .fieldNoRefKey i _ => some i
  | .refKeyMismatch i _ => some i
  | .layoutBad i => some i
  | _ => none

lemma holds_sec_none_false {d : Json} {i2 : Nat} (hga : groupAt d i2 = none) :
    ∀ w, secIdx w = some i2 → HoldsB d w = false := by
  intro w hidx
  cases w with
  | notObject => simp [secIdx] at hidx
  | missingForm => simp [secIdx] at hidx
  | missingFormVersion => simp [secIdx] at hidx
  | missingFormGroups => simp [secIdx] at hidx
  | secNoRefKey i3 =>
    simp [secIdx] at hidx; subst hidx; simp [HoldsB, hga]
  | secNoFields i3 =>
    simp [secIdx] at hidx; subst hidx; simp [HoldsB, hga]
  | badFieldType i3 j =>
    simp [secIdx] at hidx; subst hidx; simp [HoldsB, fieldAt, hga]
  | fieldNoRefKey i3 j =>
    simp [secIdx] at hidx; subst hidx; simp [HoldsB, fieldAt, hga]
  | refKeyMismatch i3 j =>
    simp [secIdx] at hidx; subst hidx; simp [HoldsB, fieldAt, hga]
  | layoutBad i3 =>
    simp [secIdx] at hidx; subst hidx; simp [HoldsB, hga]

lemma holds_sec_clean_false {d : Json} {gs : List Json} {g : Json} {i2 : Nat}
    (hsec : sectionsOf d = some gs) (hg : gs[i2]? = some g)
    (hok : ∃ rk, checkGroupCore g = .ok rk) :
    ∀ w, secIdx w = some i2 → HoldsB d w = false := by
  obtain ⟨h1, h2, h3, h4⟩ := clean_section_no_viol hsec hg hok
  intro w hidx
  cases w with
  | notObject => simp [secIdx] at hidx
  | missingForm => simp [secIdx] at hidx
  | missingFormVersion => simp [secIdx] at hidx
  | missingFormGroups => simp [secIdx] at hidx
  | secNoRefKey i3 => simp [secIdx] at hidx; subst hidx; exact h1
  | secNoFields i3 => simp [secIdx] at hidx; subst hidx; exact h2
  | badFieldType i3 j => simp [secIdx] at hidx; subst hidx; exact (h4 j).1
  | fieldNoRefKey i3 j => simp [secIdx] at hidx; subst hidx; exact (h4 j).2.1
  | refKeyMismatch i3 j => simp [secIdx] at hidx; subst hidx; exact (h4 j).2.2
  | layoutBad i3 => simp [secIdx] at hidx; subst hidx; exact h3

lemma no_viol_in_clean {d : Json} {gs : List Json} {i : Nat}
    (hsec : sectionsOf d = some gs)
    (hclean : ∀ (i2 : Nat) (g2 : Json), i2 < i → gs[i2]? = some g2 →
      ∃ rk, checkGroupCore g2 = .ok rk) :
    ∀ w (i2 : Nat), secIdx w = some i2 → i2 < i → HoldsB d w = false := by
  intro w i2 hidx hi2
  cases hg : gs[i2]? with
  | none => exact holds_sec_none_false (by simp [groupAt, hsec, hg]) w hidx
  | some g => exact holds_sec_clean_false hsec hg (hclean i2 g hi2 hg) w hidx

lemma clean_fields_below {d : Json} {gs : List Json} {g rk : Json} {fs : List Json} {i j : Nat}
    (hsec : sectionsOf d = some gs) (hg : gs[i]? = some g)
    (hrk : getItem g "refKey" = .ok rk) (hfs : fieldsOfGroup g = some fs)
    (hcleanf : ∀ (j2 : Nat) (f2 : Json), j2 < j → fs[j2]? = some f2 →
      checkField rk f2 = .ok ()) :
    ∀ (j2 : Nat), j2 < j → HoldsB d (.badFieldType i j2) = false ∧
      HoldsB d (.fieldNoRefKey i j2) = false ∧ HoldsB d (.refKeyMismatch i j2) = false := by
  intro j2 hj2
  have hga : groupAt d i = some g := by simp [groupAt, hsec, hg]
  cases hf2 : fs[j2]? with
  | none =>
    have hfa : fieldAt d i j2 = none := by simp [fieldAt, hga, hfs, hf2]
    exact ⟨by simp [HoldsB, hfa], by simp [HoldsB, hfa], by simp [HoldsB, hga, hfa]⟩
  | some f2 =>
    obtain ⟨hfobj, hbad, hnr, hmm⟩ := checkField_ok_inv (hcleanf j2 f2 hj2 hf2)
    have hfa : fieldAt d i j2 = some f2 := by simp [fieldAt, hga, hfs, hf2]
    exact ⟨by simp [HoldsB, hfa, hbad], by simp [HoldsB, hfa, hnr],
      by simp [HoldsB, hga, hfa, hrk, hmm]⟩

lemma posLt_bot (p : Nat × Nat × Nat × Nat) : ¬ posLt p (0, 0, 0, 0) := by
  rcases p with ⟨a, b, c, dd⟩
  simp [posLt]

lemma min_missingForm {d : Json} (hobj : d.isObjB = true) :
    ∀ w, HoldsB d w = true → ¬ posLt (pos w) (pos .missingForm) := by
  intro w hw hlt
  cases w with
  | notObject => simp [HoldsB, hobj] at hw
  | missingForm => simp [pos, posLt] at hlt
  | missingFormVersion => simp [pos, posLt] at hlt
  | missingFormGroups => simp [pos, posLt] at hlt
  | secNoRefKey i2 => simp [pos, posLt] at hlt
  | secNoFields i2 => simp [pos, posLt] at hlt
  | badFieldType i2 j2 => simp [pos, posLt] at hlt
  | fieldNoRefKey i2 j2 => simp [pos, posLt] at hlt
  | refKeyMismatch i2 j2 => simp [pos, posLt] at hlt
  | layoutBad i2 => simp [pos, posLt] at hlt

lemma min_missingFormVersion {d : Json} (hobj : d.isObjB = true)
    (hform : d.hasKeyB "form" = true) :
    ∀ w, HoldsB d w = true → ¬ posLt (pos w) (pos .missingFormVersion) := by
  intro w hw hlt
  cases w with
  | notObject => simp [HoldsB, hobj] at hw
  | missingForm => simp [HoldsB, hobj, hform] at hw
  | missingFormVersion => simp [pos, posLt] at hlt
  | missingFormGroups => simp [pos, posLt] at hlt
  | secNoRefKey i2 => simp [pos, posLt] at hlt
  | secNoFields i2 => simp [pos, posLt] at hlt
  | badFieldType i2 j2 => simp [pos, posLt] at hlt
  | fieldNoRefKey i2 j2 => simp [pos, posLt] at hlt
  | refKeyMismatch i2 j2 => simp [pos, posLt] at hlt
  | layoutBad i2 => simp [pos, posLt] at hlt

lemma min_missingFormGroups {d : Json} (hobj : d.isObjB = true)
    (hform : d.hasKeyB "form" = true) (hfver : d.hasKeyB "formVersion" = true) :
    ∀ w, HoldsB d w = true → ¬ posLt (pos w) (pos .missingFormGroups) := by
  intro w hw hlt
  cases w with
  | notObject => simp [HoldsB, hobj] at hw
  | missingForm => simp [HoldsB, hobj, hform] at hw
  | missingFormVersion => simp [HoldsB, hobj, hfver] at hw
  | missingFormGroups => simp [pos, posLt] at hlt
  | secNoRefKey i2 => simp [pos, posLt] at hlt
  | secNoFields i2 => simp [pos, posLt] at hlt
  | badFieldType i2 j2 => simp [pos, posLt] at hlt
  | fieldNoRefKey i2 j2 => simp [pos, posLt] at hlt
  | refKeyMismatch i2 j2 => simp [pos, posLt] at hlt
  | layoutBad i2 => simp [pos, posLt] at hlt

lemma min_secNoRefKey {d fv : Json} {gs : List Json} {i : Nat}
    (hobj : d.isObjB = true) (hform : d.hasKeyB "form" = true)
    (hfver : d.hasKeyB "formVersion" = true)
    (hfv : getItem d "formVersion" = .ok fv) (hcont : pyContains "formGroups" fv = .ok true)
    (hsec : sectionsOf d = some gs)
    (hclean : ∀ (i2 : Nat) (g2 : Json), i2 < i → gs[i2]? = some g2 →
      ∃ rk, checkGroupCore g2 = .ok rk) :
    ∀ w, HoldsB d w = true → ¬ posLt (pos w) (pos (.secNoRefKey i)) := by
  intro w hw hlt
  cases w with
  | notObject => simp [HoldsB, hobj] at hw
  | missingForm => simp [HoldsB, hobj, hform] at hw
  | missingFormVersion => simp [HoldsB, hobj, hfver] at hw
  | missingFormGroups => simp [HoldsB, hfv, hcont] at hw
  | secNoRefKey i2 =>
    simp only [pos, posLt] at hlt
    have hi2 : i2 < i := by omega
    rw [no_viol_in_clean hsec hclean _ i2 (by simp [secIdx]) hi2] at hw
    exact Bool.noConfusion hw
  | secNoFields i2 =>
    simp only [pos, posLt] at hlt
    have hi2 : i2 < i := by omega
    rw [no_viol_in_clean hsec hclean _ i2 (by simp [secIdx]) hi2] at hw
    exact Bool.noConfusion hw
  | badFieldType i2 j2 =>
    simp only [pos, posLt] at hlt
    have hi2 : i2 < i := by omega
    rw [no_viol_in_clean hsec hclean _ i2 (by simp [secIdx]) hi2] at hw
    exact Bool.noConfusion hw
  | fieldNoRefKey i2 j2 =>
    simp only [pos, posLt] at hlt
    have hi2 : i2 < i := by omega
    rw [no_viol_in_clean hsec hclean _ i2 (by simp [secIdx]) hi2] at hw
    exact Bool.noConfusion hw
  | refKeyMismatch i2 j2 =>
    simp only [pos, posLt] at hlt
    have hi2 : i2 < i := by omega
    rw [no_viol_in_clean hsec hclean _ i2 (by simp [secIdx]) hi2] at hw
    exact Bool.noConfusion hw
  | layoutBad i2 =>
    simp only [pos, posLt] at hlt
    have hi2 : i2 < i := by omega
    rw [no_viol_in_clean hsec hclean _ i2 (by simp [secIdx]) hi2] at hw
    exact Bool.noConfusion hw

lemma min_secNoFields {d fv : Json} {gs : List Json} {g : Json} {i : Nat}
    (hobj : d.isObjB = true) (hform : d.hasKeyB "form" = true)
    (hfver : d.hasKeyB "formVersion" = true)
    (hfv : getItem d "formVersion" = .ok fv) (hcont : pyContains "formGroups" fv = .ok true)
    (hsec : sectionsOf d = some gs)
    (hclean : ∀ (i2 : Nat) (g2 : Json), i2 < i → gs[i2]? = some g2 →
      ∃ rk, checkGroupCore g2 = .ok rk)
    (hg : gs[i]? = some g) (hnoref : gNoRefB g = false) :
    ∀ w, HoldsB d w = true → ¬ posLt (pos w) (pos (.secNoFields i)) := by
  have hga : groupAt d i = some g := by simp [groupAt, hsec, hg]
  intro w hw hlt
  cases w with
  | notObject => simp [HoldsB, hobj] at hw
  | missingForm => simp [HoldsB, hobj, hform] at hw
  | missingFormVersion => simp [HoldsB, hobj, hfver] at hw
  | missingFormGroups => simp [HoldsB, hfv, hcont] at hw
  | secNoRefKey i2 =>
    simp only [pos, posLt] at hlt
    have : i2 < i ∨ i2 = i := by omega
    rcases this with hi2 | rfl
    · rw [no_viol_in_clean hsec hclean _ i2 (by simp [secIdx]) hi2] at hw
      exact Bool.noConfusion hw
    · simp [HoldsB, hga, hnoref] at hw
  | secNoFields i2 =>
    simp only [pos, posLt] at hlt
    have hi2 : i2 < i := by omega
    rw [no_viol_in_clean hsec hclean _ i2 (by simp [secIdx]) hi2] at hw
    exact Bool.noConfusion hw
  | badFieldType i2 j2 =>
    simp only [pos, posLt] at hlt
    have hi2 : i2 < i := by omega
    rw [no_viol_in_clean hsec hclean _ i2 (by simp [secIdx]) hi2] at hw
    exact Bool.noConfusion hw
  | fieldNoRefKey i2 j2 =>
    simp only [pos, posLt] at hlt
    have hi2 : i2 < i := by omega
    rw [no_viol_in_clean hsec hclean _ i2 (by simp [secIdx]) hi2] at hw
    exact Bool.noConfusion hw
  | refKeyMismatch i2 j2 =>
    simp only [pos, posLt] at hlt
    have hi2 : i2 < i := by omega
    rw [no_viol_in_clean hsec hclean _ i2 (by simp [secIdx]) hi2] at hw
    exact Bool.noConfusion hw
  | layoutBad i2 =>
    simp only [pos, posLt] at hlt
    have hi2 : i2 < i := by omega
    rw [no_viol_in_clean hsec hclean _ i2 (by simp [secIdx]) hi2] at hw
    exact Bool.noConfusion hw

lemma min_badFieldType {d fv : Json} {gs : List Json} {g rk : Json} {fs : List Json} {i j : Nat}
    (hobj : d.isObjB = true) (hform : d.hasKeyB "form" = true)
    (hfver : d.hasKeyB "formVersion" = true)
    (hfv : getItem d "formVersion" = .ok fv) (hcont : pyContains "formGroups" fv = .ok true)
    (hsec : sectionsOf d = some gs)
    (hclean : ∀ (i2 : Nat) (g2 : Json), i2 < i → gs[i2]? = some g2 →
      ∃ rk2, checkGroupCore g2 = .ok rk2)
    (hg : gs[i]? = some g) (hnoref : gNoRefB g = false) (hnofields : gNoFieldsB g = false)
    (hrk : getItem g "refKey" = .ok rk) (hfs : fieldsOfGroup g = some fs)
    (hcleanf : ∀ (j2 : Nat) (f2 : Json), j2 < j → fs[j2]? = some f2 →
      checkField rk f2 = .ok ()) :
    ∀ w, HoldsB d w = true → ¬ posLt (pos w) (pos (.badFieldType i j)) := by
  have hga : groupAt d i = some g := by simp [groupAt, hsec, hg]
  intro w hw hlt
  cases w with
  | notObject => simp [HoldsB, hobj] at hw
  | missingForm => simp [HoldsB, hobj, hform] at hw
  | missingFormVersion => simp [HoldsB, hobj, hfver] at hw
  | missingFormGroups => simp [HoldsB, hfv, hcont] at hw
  | secNoRefKey i2 =>
    simp only [pos, posLt] at hlt
    have : i2 < i ∨ i2 = i := by omega
    rcases this with hi2 | rfl
    · rw [no_viol_in_clean hsec hclean _ i2 (by simp [secIdx]) hi2] at hw
      exact Bool.noConfusion hw
    · simp [HoldsB, hga, hnoref] at hw
  | secNoFields i2 =>
    simp only [pos, posLt] at hlt
    have : i2 < i ∨ i2 = i := by omega
    rcases this with hi2 | rfl
    · rw [no_viol_in_clean hsec hclean _ i2 (by simp [secIdx]) hi2] at hw
      exact Bool.noConfusion hw
    · simp [HoldsB, hga, hnofields] at hw
  | badFieldType i2 j2 =>
    simp only [pos, posLt] at hlt
    have : i2 < i ∨ (i2 = i ∧ j2 < j) := by omega
    rcases this with hi2 | ⟨rfl, hj2⟩
    · rw [no_viol_in_clean hsec hclean _ i2 (by simp [secIdx]) hi2] at hw
      exact Bool.noConfusion hw
    · rw [(clean_fields_below hsec hg hrk hfs hcleanf j2 hj2).1] at hw
      exact Bool.noConfusion hw
  | fieldNoRefKey i2 j2 =>
    simp only [pos, posLt] at hlt
    have : i2 < i ∨ (i2 = i ∧ j2 < j) := by omega
    rcases this with hi2 | ⟨rfl, hj2⟩
    · rw [no_viol_in_clean hsec hclean _ i2 (by simp [secIdx]) hi2] at hw
      exact Bool.noConfusion hw
    · rw [(clean_fields_below hsec hg hrk hfs hcleanf j2 hj2).2.1] at hw
      exact Bool.noConfusion hw
  | refKeyMismatch i2 j2 =>
    simp only [pos, posLt] at hlt
    have : i2 < i ∨ (i2 = i ∧ j2 < j) := by omega
    rcases this with hi2 | ⟨rfl, hj2⟩
    · rw [no_viol_in_clean hsec hclean _ i2 (by simp [secIdx]) hi2] at hw
      exact Bool.noConfusion hw
    · rw [(clean_fields_below hsec hg hrk hfs hcleanf j2 hj2).2.2] at hw
      exact Bool.noConfusion hw
  | layoutBad i2 =>
    simp only [pos, posLt] at hlt
    have hi2 : i2 < i := by omega
    rw [no_viol_in_clean hsec hclean _ i2 (by simp [secIdx]) hi2] at hw
    exact Bool.noConfusion hw

lemma min_fieldNoRefKey {d fv : Json} {gs : List Json} {g rk f : Json} {fs : List Json} {i j : Nat}
    (hobj : d.isObjB = true) (hform : d.hasKeyB "form" = true)
    (hfver : d.hasKeyB "formVersion" = true)
    (hfv : getItem d "formVersion" = .ok fv) (hcont : pyContains "formGroups" fv = .ok true)
    (hsec : sectionsOf d = some gs)
    (hclean : ∀ (i2 : Nat) (g2 : Json), i2 < i → gs[i2]? = some g2 →
      ∃ rk2, checkGroupCore g2 = .ok rk2)
    (hg : gs[i]? = some g) (hnoref : gNoRefB g = false) (hnofields : gNoFieldsB g = false)
    (hrk : getItem g "refKey" = .ok rk) (hfs : fieldsOfGroup g = some fs)
    (hcleanf : ∀ (j2 : Nat) (f2 : Json), j2 < j → fs[j2]? = some f2 →
      checkField rk f2 = .ok ())
    (hf : fs[j]? = some f) (hfbad : fBadB f = false) :
    ∀ w, HoldsB d w = true → ¬ posLt (pos w) (pos (.fieldNoRefKey i j)) := by
  have hga : groupAt d i = some g := by simp [groupAt, hsec, hg]
  have hfa : fieldAt d i j = some f := by simp [fieldAt, hga, hfs, hf]
  intro w hw hlt
  cases w with
  | notObject => simp [HoldsB, hobj] at hw
  | missingForm => simp [HoldsB, hobj, hform] at hw
  | missingFormVersion => simp [HoldsB, hobj, hfver] at hw
  | missingFormGroups => simp [HoldsB, hfv, hcont] at hw
  | secNoRefKey i2 =>
    simp only [pos, posLt] at hlt
    have : i2 < i ∨ i2 = i := by omega
    rcases this with hi2 | rfl
    · rw [no_viol_in_clean hsec hclean _ i2 (by simp [secIdx]) hi2] at hw
      exact Bool.noConfusion hw
    · simp [HoldsB, hga, hnoref] at hw
  | secNoFields i2 =>
    simp only [pos, posLt] at hlt
    have : i2 < i ∨ i2 = i := by omega
    rcases this with hi2 | rfl
    · rw [no_viol_in_clean hsec hclean _ i2 (by simp [secIdx]) hi2] at hw
      exact Bool.noConfusion hw
    · simp [HoldsB, hga, hnofields] at hw
  | badFieldType i2 j2 =>
    simp only [pos, posLt] at hlt
    have : i2 < i ∨ (i2 = i ∧ (j2 < j ∨ j2 = j)) := by omega
    rcases this with hi2 | ⟨rfl, hj⟩
    · rw [no_viol_in_clean hsec hclean _ i2 (by simp [secIdx]) hi2] at hw
      exact Bool.noConfusion hw
    · rcases hj with hj2 | rfl
      · rw [(clean_fields_below hsec hg hrk hfs hcleanf j2 hj2).1] at hw
        exact Bool.noConfusion hw
      · simp [HoldsB, hfa, hfbad] at hw
  | fieldNoRefKey i2 j2 =>
    simp only [pos, posLt] at hlt
    have : i2 < i ∨ (i2 = i ∧ j2 < j) := by omega
    rcases this with hi2 | ⟨rfl, hj2⟩
    · rw [no_viol_in_clean hsec hclean _ i2 (by simp [secIdx]) hi2] at hw
      exact Bool.noConfusion hw
    · rw [(clean_fields_below hsec hg hrk hfs hcleanf j2 hj2).2.1] at hw
      exact Bool.noConfusion hw
  | refKeyMismatch i2 j2 =>
    simp only [pos, posLt] at hlt
    have : i2 < i ∨ (i2 = i ∧ j2 < j) := by omega
    rcases this with hi2 | ⟨rfl, hj2⟩
    · rw [no_viol_in_clean hsec hclean _ i2 (by simp [secIdx]) hi2] at hw
      exact Bool.noConfusion hw
    · rw [(clean_fields_below hsec hg hrk hfs hcleanf j2 hj2).2.2] at hw
      exact Bool.noConfusion hw
  | layoutBad i2 =>
    simp only [pos, posLt] at hlt
    have hi2 : i2 < i := by omega
    rw [no_viol_in_clean hsec hclean _ i2 (by simp [secIdx]) hi2] at hw
    exact Bool.noConfusion hw

lemma min_refKeyMismatch {d fv : Json} {gs : List Json} {g rk f : Json} {fs : List Json} {i j : Nat}
    (hobj : d.isObjB = true) (hform : d.hasKeyB "form" = true)
    (hfver : d.hasKeyB "formVersion" = true)
    (hfv : getItem d "formVersion" = .ok fv) (hcont : pyContains "formGroups" fv = .ok true)
    (hsec : sectionsOf d = some gs)
    (hclean : ∀ (i2 : Nat) (g2 : Json), i2 < i → gs[i2]? = some g2 →
      ∃ rk2, checkGroupCore g2 = .ok rk2)
    (hg : gs[i]? = some g) (hnoref : gNoRefB g = false) (hnofields : gNoFieldsB g = false)
    (hrk : getItem g "refKey" = .ok rk) (hfs : fieldsOfGroup g = some fs)
    (hcleanf : ∀ (j2 : Nat) (f2 : Json), j2 < j → fs[j2]? = some f2 →
      checkField rk f2 = .ok ())
    (hf : fs[j]? = some f) (hfbad : fBadB f = false) (hfnr : fNoRefB f = false) :
    ∀ w, HoldsB d w = true → ¬ posLt (pos w) (pos (.refKeyMismatch i j)) := by
  have hga : groupAt d i = some g := by simp [groupAt, hsec, hg]
  have hfa : fieldAt d i j = some f := by simp [fieldAt, hga, hfs, hf]
  intro w hw hlt
  cases w with
  | notObject => simp [HoldsB, hobj] at hw
  | missingForm => simp [HoldsB, hobj, hform] at hw
  | missingFormVersion => simp [HoldsB, hobj, hfver] at hw
  | missingFormGroups => simp [HoldsB, hfv, hcont] at hw
  | secNoRefKey i2 =>
    simp only [pos, posLt] at hlt
    have : i2 < i ∨ i2 = i := by omega
    rcases this with hi2 | rfl
    · rw [no_viol_in_clean hsec hclean _ i2 (by simp [secIdx]) hi2] at hw
      exact Bool.noConfusion hw
    · simp [HoldsB, hga, hnoref] at hw
  | secNoFields i2 =>
    simp only [pos, posLt] at hlt
    have : i2 < i ∨ i2 = i := by omega
    rcases this with hi2 | rfl
    · rw [no_viol_in_clean hsec hclean _ i2 (by simp [secIdx]) hi2] at hw
      exact Bool.noConfusion hw
    · simp [HoldsB, hga, hnofields] at hw
  | badFieldType i2 j2 =>
    simp only [pos, posLt] at hlt
    have : i2 < i ∨ (i2 = i ∧ (j2 < j ∨ j2 = j)) := by omega
    rcases this with hi2 | ⟨rfl, hj⟩
    · rw [no_viol_in_clean hsec hclean _ i2 (by simp [secIdx]) hi2] at hw
      exact Bool.noConfusion hw
    · rcases hj with hj2 | rfl
      · rw [(clean_fields_below hsec hg hrk hfs hcleanf j2 hj2).1] at hw
        exact Bool.noConfusion hw
      · simp [HoldsB, hfa, hfbad] at hw
  | fieldNoRefKey i2 j2 =>
    simp only [pos, posLt] at hlt
    have : i2 < i ∨ (i2 = i ∧ (j2 < j ∨ j2 = j)) := by omega
    rcases this with hi2 | ⟨rfl, hj⟩
    · rw [no_viol_in_clean hsec hclean _ i2 (by simp [secIdx]) hi2] at hw
      exact Bool.noConfusion hw
    · rcases hj with hj2 | rfl
      · rw [(clean_fields_below hsec hg hrk hfs hcleanf j2 hj2).2.1] at hw
        exact Bool.noConfusion hw
      · simp [HoldsB, hfa, hfnr] at hw
  | refKeyMismatch i2 j2 =>
    simp only [pos, posLt] at hlt
    have : i2 < i ∨ (i2 = i ∧ j2 < j) := by omega
    rcases this with hi2 | ⟨rfl, hj2⟩
    · rw [no_viol_in_clean hsec hclean _ i2 (by simp [secIdx]) hi2] at hw
      exact Bool.noConfusion hw
    · rw [(clean_fields_below hsec hg hrk hfs hcleanf j2 hj2).2.2] at hw
      exact Bool.noConfusion hw
  | layoutBad i2 =>
    simp only [pos, posLt] at hlt
    have hi2 : i2 < i := by omega
    rw [no_viol_in_clean hsec hclean _ i2 (by simp [secIdx]) hi2] at hw
    exact Bool.noConfusion hw

lemma min_layoutBad {d fv : Json} {gs : List Json} {g rk : Json} {fs : List Json} {i : Nat}
    (hobj : d.isObjB = true) (hform : d.hasKeyB "form" = true)
    (hfver : d.hasKeyB "formVersion" = true)
    (hfv : getItem d "formVersion" = .ok fv) (hcont : pyContains "formGroups" fv = .ok true)
    (hsec : sectionsOf d = some gs)
    (hclean : ∀ (i2 : Nat) (g2 : Json), i2 < i → gs[i2]? = some g2 →
      ∃ rk2, checkGroupCore g2 = .ok rk2)
    (hg : gs[i]? = some g) (hnoref : gNoRefB g = false) (hnofields : gNoFieldsB g = false)
    (hrk : getItem g "refKey" = .ok rk) (hfs : fieldsOfGroup g = some fs)
    (hcf : checkFields rk fs = .ok ()) :
    ∀ w, HoldsB d w = true → ¬ posLt (pos w) (pos (.layoutBad i)) := by
  have hga : groupAt d i = some g := by simp [groupAt, hsec, hg]
  have hcleanall : ∀ (j2 : Nat) (f2 : Json), fs[j2]? = some f2 → checkField rk f2 = .ok () :=
    fun j2 f2 hf2 => checkFields_ok_inv hcf j2 f2 hf2
  intro w hw hlt
  cases w with
  | notObject => simp [HoldsB, hobj] at hw
  | missingForm => simp [HoldsB, hobj, hform] at hw
  | missingFormVersion => simp [HoldsB, hobj, hfver] at hw
  | missingFormGroups => simp [HoldsB, hfv, hcont] at hw
  | secNoRefKey i2 =>
    simp only [pos, posLt] at hlt
    have : i2 < i ∨ i2 = i := by omega
    rcases this with hi2 | rfl
    · rw [no_viol_in_clean hsec hclean _ i2 (by simp [secIdx]) hi2] at hw
      exact Bool.noConfusion hw
    · simp [HoldsB, hga, hnoref] at hw
  | secNoFields i2 =>
    simp only [pos, posLt] at hlt
    have : i2 < i ∨ i2 = i := by omega
    rcases this with hi2 | rfl
    · rw [no_viol_in_clean hsec hclean _ i2 (by simp [secIdx]) hi2] at hw
      exact Bool.noConfusion hw
    · simp [HoldsB, hga, hnofields] at hw
  | badFieldType i2 j2 =>
    simp only [pos, posLt] at hlt
    have : i2 < i ∨ i2 = i := by omega
    rcases this with hi2 | rfl
    · rw [no_viol_in_clean hsec hclean _ i2 (by simp [secIdx]) hi2] at hw
      exact Bool.noConfusion hw
    · rw [(clean_fields_below hsec hg hrk hfs
        (fun j3 f3 _ hf3 => hcleanall j3 f3 hf3) j2 (Nat.lt_succ_self j2)).1] at hw
      exact Bool.noConfusion hw
  | fieldNoRefKey i2 j2 =>
    simp only [pos, posLt] at hlt
    have : i2 < i ∨ i2 = i := by omega
    rcases this with hi2 | rfl
    · rw [no_viol_in_clean hsec hclean _ i2 (by simp [secIdx]) hi2] at hw
      exact Bool.noConfusion hw
    · rw [(clean_fields_below hsec hg hrk hfs
        (fun j3 f3 _ hf3 => hcleanall j3 f3 hf3) j2 (Nat.lt_succ_self j2)).2.1] at hw
      exact Bool.noConfusion hw
  | refKeyMismatch i2 j2 =>
    simp only [pos, posLt] at hlt
    have : i2 < i ∨ i2 = i := by omega
    rcases this with hi2 | rfl
    · rw [no_viol_in_clean hsec hclean _ i2 (by simp [secIdx]) hi2] at hw
      exact Bool.noConfusion hw
    · rw [(clean_fields_below hsec hg hrk hfs
        (fun j3 f3 _ hf3 => hcleanall j3 f3 hf3) j2 (Nat.lt_succ_self j2)).2.2] at hw
      exact Bool.noConfusion hw
  | layoutBad i2 =>
    simp only [pos, posLt] at hlt
    have hi2 : i2 < i := by omega
    rw [no_viol_in_clean hsec hclean _ i2 (by simp [secIdx]) hi2] at hw
    exact Bool.noConfusion hw

lemma validate_err_minimal {d : Json} {m : String}
    (h : _validate_form_structure d = .error (.valueError m)) :
    ∃ v, HoldsB d v = true ∧ vErr d v = some (.valueError m) ∧
      ∀ w, HoldsB d w = true → ¬ posLt (pos w) (pos v) := by
  unfold _validate_form_structure at h
  split at h
  next hobj =>
    split at h
    next hform =>
      split at h
      next hfver =>
        split at h
        next e heq =>
          obtain ⟨fv, hfv⟩ := getItem_of_hasKey hfver
          simp [hfv] at heq
        next fv hfv =>
          split at h
          next e heq =>
            have := pyContains_err_shape heq
            rw [this] at h
            simp at h
          next hcont =>
            simp only [Except.error.injEq, PyErr.valueError.injEq] at h
            refine ⟨.missingFormGroups, ?_, ?_, min_missingFormGroups hobj hform hfver⟩
            · simp [HoldsB, hobj, hfv, hcont]
            · simp [vErr, h]
          next hcont =>
            split at h
            next e heq =>
              rcases getItem_err_shape heq with he | he <;> rw [he] at h <;> simp at h
            next fgJ hfg =>
              split at h
              next e heq =>
                have := toIter_err_shape heq
                rw [this] at h
                simp at h
              next gs hit =>
                split at h
                next e heq =>
                  simp only [Except.error.injEq] at h
                  subst h
                  have hsec := sectionsOf_eq hobj hfv hcont hfg hit
                  obtain ⟨i, g, hg, hclean, herr⟩ := checkGroups_err_inv heq
                  obtain ⟨hgobj, hcases⟩ := checkGroupCore_err_inv herr
                  have hga : groupAt d i = some g := by simp [groupAt, hsec, hg]
                  rcases hcases with ⟨hnoref, hm⟩ | ⟨hnoref, hnof, hm⟩ |
                    ⟨hnoref, hnof, rk, fs, hrk, hfs, hcferr⟩ |
                    ⟨hnoref, hnof, rk, fs, hrk, hfs, hcfok, hlerr⟩
                  · refine ⟨.secNoRefKey i, ?_, ?_,
                      min_secNoRefKey hobj hform hfver hfv hcont hsec hclean⟩
                    · simp [HoldsB, hga, hgobj, hnoref]
                    · simp [vErr, hga, hm]
                  · refine ⟨.secNoFields i, ?_, ?_,
                      min_secNoFields hobj hform hfver hfv hcont hsec hclean hg hnoref⟩
                    · simp [HoldsB, hga, hgobj, hnof]
                    · simp [vErr, hm]
                  · obtain ⟨j, f, hf, hcleanf, hferr⟩ := checkFields_err_inv hcferr
                    obtain ⟨hfobj, hfcases⟩ := checkField_err_inv hferr
                    have hfa : fieldAt d i j = some f := by simp [fieldAt, hga, hfs, hf]
                    rcases hfcases with ⟨hbad, ft, hft, hm⟩ | ⟨hbadf, hnr, hm⟩ |
                      ⟨hbadf, hnrf, hmm, frk, hfrk, hm⟩
                    · refine ⟨.badFieldType i j, ?_, ?_,
                        min_badFieldType hobj hform hfver hfv hcont hsec hclean hg hnoref
                          hnof hrk hfs hcleanf⟩
                      · simp [HoldsB, hfa, hfobj, hbad]
                      · simp [vErr, hfa, hft, hm]
                    · refine ⟨.fieldNoRefKey i j, ?_, ?_,
                        min_fieldNoRefKey hobj hform hfver hfv hcont hsec hclean hg hnoref
                          hnof hrk hfs hcleanf hf hbadf⟩
                      · simp [HoldsB, hfa, hfobj, hnr]
                      · simp [vErr, hfa, hm]
                    · refine ⟨.refKeyMismatch i j, ?_, ?_,
                        min_refKeyMismatch hobj hform hfver hfv hcont hsec hclean hg hnoref
                          hnof hrk hfs hcleanf hf hbadf hnrf⟩
                      · simp [HoldsB, hga, hfa, hrk, hmm]
                      · simp [vErr, hga, hfa, hrk, hfrk, hm]
                  · obtain ⟨hgobj2, hlb, hm⟩ := layoutCheck_err_inv hlerr
                    refine ⟨.layoutBad i, ?_, ?_,
                      min_layoutBad hobj hform hfver hfv hcont hsec hclean hg hnoref hnof
                        hrk hfs hcfok⟩
                    · simp [HoldsB, hga, hlb]
                    · simp [vErr, hga, hm]
                next s hcg => simp at h
      next hfver =>
        simp only [Except.error.injEq, PyErr.valueError.injEq] at h
        have hfv2 : d.hasKeyB "formVersion" = false := by simpa using hfver
        refine ⟨.missingFormVersion, ?_, ?_, min_missingFormVersion hobj hform⟩
        · simp [HoldsB, hobj, hfv2]
        · simp [vErr, h]
    next hform =>
      simp only [Except.error.injEq, PyErr.valueError.injEq] at h
      have hf2 : d.hasKeyB "form" = false := by simpa using hform
      refine ⟨.missingForm, ?_, ?_, min_missingForm hobj⟩
      · simp [HoldsB, hobj, hf2]
      · simp [vErr, h]
  next hobj =>
    simp only [Except.error.injEq, PyErr.valueError.injEq] at h
    have ho2 : d.isObjB = false := by simpa using hobj
    refine ⟨.notObject, ?_, ?_, fun w _ => posLt_bot (pos w)⟩
    · simp [HoldsB, ho2]
    · simp [vErr, h]

lemma pos_inj : ∀ v w : V, pos v = pos w → v = w := by
  intro v w h
  cases v <;> cases w <;> simp only [pos, Prod.mk.injEq] at h <;> simp_all <;> omega

lemma posLt_total : ∀ p q : Nat × Nat × Nat × Nat, posLt p q ∨ p = q ∨ posLt q p := by
  rintro ⟨a, b, c, dd⟩ ⟨a2, b2, c2, dd2⟩
  simp only [posLt, Prod.mk.injEq]
  omega

lemma minimal_unique {d : Json} {v w : V}
    (hv : HoldsB d v = true)
    (hminv : ∀ u, HoldsB d u = true → ¬ posLt (pos u) (pos v))
    (hw : HoldsB d w = true)
    (hminw : ∀ u, HoldsB d u = true → ¬ posLt (pos u) (pos w)) : v = w := by
  rcases posLt_total (pos v) (pos w) with hlt | heq | hgt
  · exact absurd hlt (hminw v hv)
  · exact pos_inj v w heq
  · exact absurd hgt (hminv w hw)

lemma strContains_of_split (s a b c : String) (h : s = a ++ b ++ c) :
    strContainsB s b = true := by
  subst h
  unfold strContainsB
  rw [decide_eq_true_iff]
  exact ⟨a.data, c.data, by simp [String.data_append]⟩

lemma strContains_msgBadType (v : String) : strContainsB (msgBadType v) v = true := by
  apply strContains_of_split _ "Invalid field type: " v ""
  simp [msgBadType]

lemma strContains_msgMismatch_left (nm frk rk : String) :
    strContainsB (msgMismatch nm frk rk) frk = true := by
  apply strContains_of_split _ ("Field " ++ sQuote ++ nm ++ sQuote ++ " has refKey " ++ sQuote)
    frk (sQuote ++ " that doesn" ++ sQuote ++ "t match its section refKey " ++ sQuote ++ rk ++
      sQuote)
  apply String.ext
  simp [msgMismatch, String.data_append, List.append_assoc]

lemma strContains_msgMismatch_right (nm frk rk : String) :
    strContainsB (msgMismatch nm frk rk) rk = true := by
  apply strContains_of_split _
    ("Field " ++ sQuote ++ nm ++ sQuote ++ " has refKey " ++ sQuote ++ frk ++ sQuote ++
      " that doesn" ++ sQuote ++ "t match its section refKey " ++ sQuote) rk sQuote
  apply String.ext
  simp [msgMismatch, String.data_append, List.append_assoc]

lemma strContains_msgMissing (k : String) : strContainsB (msgMissing k) k = true := by
  apply strContains_of_split _ ("Response must contain " ++ sQuote) k (sQuote ++ " field")
  apply String.ext
  simp [msgMissing, String.data_append, List.append_assoc]

/-!
Claim theorems.  Each theorem corresponds to one claim of the specification
review; the helper lemmas above carry the shared content.
-/

/-- C4: a well-formed document is accepted: the document with keys `form` and
`formVersion`, one section `s1`, and one `text` field with refKey `s1`
validates without error (the validator returns normally with no value). -/
theorem valid_document_passes : _validate_form_structure p1doc = .ok () := rfl

/-- C2 (duplicate section refKeys, claimed to be rejected): the validator in
fact ACCEPTS an otherwise well-formed document whose two sections share the
refKey `s1` — the `section_ref_keys` set is collected but never compared, so
the uniqueness invariant the spec states is not enforced by the code. -/
theorem duplicate_refKeys_accepted : _validate_form_structure dupDoc = .ok () := rfl

/-- C10: the field-type check reads `fieldType` unguarded: on an otherwise
well-formed document whose field lacks `fieldType`, validation fails with a
raw `KeyError` on `fieldType`, not with a `ValueError` naming the field. -/
theorem missing_fieldType_raises_keyError :
    _validate_form_structure noTypeDoc = .error (.keyError "fieldType") := rfl

/-- C1 counterexample: a section with refKey `a` whose `configurations.layout`
object is present but has NO `sectionKey` is rejected by the validator
(`.get("sectionKey")` yields `None`, which differs from `"a"`), although the
claim says such a section passes the layout check regardless of whether a
`configurations.layout` object is present. -/
theorem layout_sectionKey_absent_rejected :
    _validate_form_structure layoutNoKeyDoc =
      .error (.valueError (msgLayout "unnamed")) ∧
    _validate_form_structure layoutNoKeyDoc ≠ .ok () := ⟨rfl, by decide⟩

/-- C1 amended: the layout self-consistency check fires whenever a
`configurations.layout` object is reachable: (1) a present `sectionKey`
differing from the section refKey fails with an error naming the section;
(2) an ABSENT `sectionKey` with the layout object present also fails
whenever the refKey differs from null, because the lookup defaults to
`None`; the check is skipped only when (3) `configurations` is absent or
(4) `configurations` has no `layout` key. -/
theorem layout_check_amended :
    (∀ (kvs ckvs lkvs : List (String × Json)) (rk sk : Json),
      jlookup kvs "refKey" = some rk →
      jlookup kvs "configurations" = some (.obj ckvs) →
      jlookup ckvs "layout" = some (.obj lkvs) →
      jlookup lkvs "sectionKey" = some sk →
      (sk != rk) = true →
      layoutCheck (.obj kvs) =
        .error (.valueError (msgLayout (pyStr (gname (.obj kvs)))))) ∧
    (∀ (kvs ckvs lkvs : List (String × Json)) (rk : Json),
      jlookup kvs "refKey" = some rk →
      jlookup kvs "configurations" = some (.obj ckvs) →
      jlookup ckvs "layout" = some (.obj lkvs) →
      jlookup lkvs "sectionKey" = none →
      (Json.null != rk) = true →
      layoutCheck (.obj kvs) =
        .error (.valueError (msgLayout (pyStr (gname (.obj kvs)))))) ∧
    (∀ kvs : List (String × Json), jlookup kvs "configurations" = none →
      layoutCheck (.obj kvs) = .ok ()) ∧
    (∀ (kvs ckvs : List (String × Json)),
      jlookup kvs "configurations" = some (.obj ckvs) →
      jlookup ckvs "layout" = none →
      layoutCheck (.obj kvs) = .ok ()) := by
  refine ⟨?_, ?_, ?_, ?_⟩
  · intro kvs ckvs lkvs rk sk h1 h2 h3 h4 h5
    simp [layoutCheck, pyContains, getItem, dictGet, gname, h1, h2, h3, h4, h5]
  · intro kvs ckvs lkvs rk h1 h2 h3 h4 h5
    simp [layoutCheck, pyContains, getItem, dictGet, gname, h1, h2, h3, h4, h5]
  · intro kvs h1
    simp [layoutCheck, pyContains, h1]
  · intro kvs ckvs h1 h2
    simp [layoutCheck, pyContains, getItem, h1, h2]

/-- Witness for `layout_check_amended`, applied at the concrete section of
`layoutWrongKeyDoc` (refKey `a`, layout sectionKey `z`). -/
theorem layout_check_amended_witness :
    layoutCheck layoutWrongSection =
      .error (.valueError (msgLayout (pyStr (gname layoutWrongSection)))) :=
  layout_check_amended.1 _ _ _ _ _ rfl rfl rfl rfl rfl

/-- C3: fail-fast in the specified order.  On acceptance no catalogued
violation holds; and every `StructureError` (`ValueError`) report is the
POSITION-MINIMAL catalogued violation, with the exact message the source
builds for it: no later-ordered violation is ever the one reported when an
earlier-ordered violation exists. -/
theorem validate_fail_fast (d : Json) :
    (_validate_form_structure d = .ok () → ∀ v, HoldsB d v = false) ∧
    (∀ m : String, _validate_form_structure d = .error (.valueError m) →
      ∃ v, HoldsB d v = true ∧ vErr d v = some (.valueError m) ∧
        ∀ w, HoldsB d w = true → ¬ posLt (pos w) (pos v)) :=
  ⟨fun h => validate_ok_no_viol h, fun _ h => validate_err_minimal h⟩

/-- Witness for `validate_fail_fast` at `noVersionDoc`, whose earliest (and
only) violation is the missing `formVersion` key. -/
theorem validate_fail_fast_witness :
    _validate_form_structure noVersionDoc =
      .error (.valueError (msgMissing "formVersion")) ∧
    ∃ v, HoldsB noVersionDoc v = true ∧
      vErr noVersionDoc v = some (.valueError (msgMissing "formVersion")) ∧
      ∀ w, HoldsB noVersionDoc w = true → ¬ posLt (pos w) (pos v) :=
  ⟨rfl, (validate_fail_fast noVersionDoc).2 (msgMissing "formVersion") rfl⟩

/-- C5: when the earliest violation of a document is a field whose refKey
differs from its owning section's refKey, the validator fails with a
`StructureError` whose message contains both the field's refKey and the
section's refKey. -/
theorem mismatch_error_names_both {d : Json} {i j : Nat} {m : String} {g f rk frk : Json}
    (hrep : _validate_form_structure d = .error (.valueError m))
    (hholds : HoldsB d (.refKeyMismatch i j) = true)
    (hmin : ∀ w, HoldsB d w = true → ¬ posLt (pos w) (pos (.refKeyMismatch i j)))
    (hg : groupAt d i = some g) (hf : fieldAt d i j = some f)
    (hrk : getItem g "refKey" = .ok rk) (hfrk : getItem f "refKey" = .ok frk) :
    strContainsB m (pyStr frk) = true ∧ strContainsB m (pyStr rk) = true := by
  obtain ⟨v, hvh, hverr, hvmin⟩ := validate_err_minimal hrep
  have hveq : v = .refKeyMismatch i j := minimal_unique hvh hvmin hholds hmin
  subst hveq
  simp [vErr, hg, hf, hrk, hfrk] at hverr
  subst hverr
  exact ⟨strContains_msgMismatch_left _ _ _, strContains_msgMismatch_right _ _ _⟩

/-- Witness for `mismatch_error_names_both` at `mismatchDoc` (section `a`,
field `b`): both refKeys occur in the reported message. -/
theorem mismatch_error_names_both_witness :
    strContainsB (msgMismatch "unnamed" "b" "a") "b" = true ∧
    strContainsB (msgMismatch "unnamed" "b" "a") "a" = true := by
  have hmin : ∀ w, HoldsB mismatchDoc w = true →
      ¬ posLt (pos w) (pos (.refKeyMismatch 0 0)) :=
    min_refKeyMismatch (show mismatchDoc.isObjB = true from rfl)
      (show mismatchDoc.hasKeyB "form" = true from rfl)
      (show mismatchDoc.hasKeyB "formVersion" = true from rfl)
      (show getItem mismatchDoc "formVersion" =
        .ok (.obj [("formGroups", .arr [mmSection])]) from rfl)
      (show pyContains "formGroups" (.obj [("formGroups", .arr [mmSection])]) =
        .ok true from rfl)
      (show sectionsOf mismatchDoc = some [mmSection] from rfl)
      (fun i2 g2 hi2 _ => absurd hi2 (by omega))
      (show [mmSection][0]? = some mmSection from rfl)
      (show gNoRefB mmSection = false from rfl)
      (show gNoFieldsB mmSection = false from rfl)
      (show getItem mmSection "refKey" = .ok (.str "a") from rfl)
      (show fieldsOfGroup mmSection = some [mmField] from rfl)
      (fun j2 f2 hj2 _ => absurd hj2 (by omega))
      (show [mmField][0]? = some mmField from rfl)
      (show fBadB mmField = false from rfl)
      (show fNoRefB mmField = false from rfl)
  exact mismatch_error_names_both
    (show _validate_form_structure mismatchDoc =
      .error (.valueError (msgMismatch "unnamed" "b" "a")) from rfl)
    (show HoldsB mismatchDoc (.refKeyMismatch 0 0) = true from rfl)
    hmin rfl rfl rfl rfl

/-- C6: when the earliest violation of a document is a field whose present
`fieldType` is not one of the six allowed values, the validator fails with a
`StructureError` whose message contains the offending fieldType value. -/
theorem invalid_fieldType_named {d : Json} {i j : Nat} {m : String} {f ft : Json}
    (hrep : _validate_form_structure d = .error (.valueError m))
    (hholds : HoldsB d (.badFieldType i j) = true)
    (hmin : ∀ w, HoldsB d w = true → ¬ posLt (pos w) (pos (.badFieldType i j)))
    (hf : fieldAt d i j = some f) (hft : getItem f "fieldType" = .ok ft) :
    strContainsB m (pyStr ft) = true := by
  obtain ⟨v, hvh, hverr, hvmin⟩ := validate_err_minimal hrep
  have hveq : v = .badFieldType i j := minimal_unique hvh hvmin hholds hmin
  subst hveq
  simp [vErr, hf, hft] at hverr
  subst hverr
  exact strContains_msgBadType _

/-- Witness for `invalid_fieldType_named` at `dateDoc` (fieldType `date`). -/
theorem invalid_fieldType_named_witness :
    strContainsB (msgBadType "date") "date" = true := by
  have hmin : ∀ w, HoldsB dateDoc w = true →
      ¬ posLt (pos w) (pos (.badFieldType 0 0)) :=
    min_badFieldType (show dateDoc.isObjB = true from rfl)
      (show dateDoc.hasKeyB "form" = true from rfl)
      (show dateDoc.hasKeyB "formVersion" = true from rfl)
      (show getItem dateDoc "formVersion" =
        .ok (.obj [("formGroups", .arr [dateSection])]) from rfl)
      (show pyContains "formGroups" (.obj [("formGroups", .arr [dateSection])]) =
        .ok true from rfl)
      (show sectionsOf dateDoc = some [dateSection] from rfl)
      (fun i2 g2 hi2 _ => absurd hi2 (by omega))
      (show [dateSection][0]? = some dateSection from rfl)
      (show gNoRefB dateSection = false from rfl)
      (show gNoFieldsB dateSection = false from rfl)
      (show getItem dateSection "refKey" = .ok (.str "s1") from rfl)
      (show fieldsOfGroup dateSection = some [dateField] from rfl)
      (fun j2 f2 hj2 _ => absurd hj2 (by omega))
  exact invalid_fieldType_named
    (show _validate_form_structure dateDoc =
      .error (.valueError (msgBadType "date")) from rfl)
    (show HoldsB dateDoc (.badFieldType 0 0) = true from rfl)
    hmin rfl rfl

/-- C7: a document that is a mapping but lacks a required top-level key is
rejected with a `StructureError` naming the missing key: lacking
`formVersion` (with `form` present) names `formVersion`; lacking `form`
names `form` (the earlier key in the check order). -/
theorem missing_top_level_key_named :
    (∀ d : Json, d.isObjB = true → d.hasKeyB "form" = true →
      d.hasKeyB "formVersion" = false →
      _validate_form_structure d = .error (.valueError (msgMissing "formVersion")) ∧
      strContainsB (msgMissing "formVersion") "formVersion" = true) ∧
    (∀ d : Json, d.isObjB = true → d.hasKeyB "form" = false →
      _validate_form_structure d = .error (.valueError (msgMissing "form")) ∧
      strContainsB (msgMissing "form") "form" = true) := by
  constructor
  · intro d hobj hform hfver
    refine ⟨?_, strContains_msgMissing _⟩
    unfold _validate_form_structure
    simp [hobj, hform, hfver]
  · intro d hobj hform
    refine ⟨?_, strContains_msgMissing _⟩
    unfold _validate_form_structure
    simp [hobj, hform]

/-- Witness for `missing_top_level_key_named` at `noVersionDoc` (lacking
`formVersion`) and the empty mapping (lacking `form`). -/
theorem missing_top_level_key_named_witness :
    (_validate_form_structure noVersionDoc =
      .error (.valueError (msgMissing "formVersion")) ∧
     strContainsB (msgMissing "formVersion") "formVersion" = true) ∧
    (_validate_form_structure (Json.obj []) =
      .error (.valueError (msgMissing "form")) ∧
     strContainsB (msgMissing "form") "form" = true) :=
  ⟨missing_top_level_key_named.1 noVersionDoc rfl rfl rfl,
   missing_top_level_key_named.2 (Json.obj []) rfl rfl⟩

/-- C8: validation is pure and hands the document on unchanged: the
validator is a function of the document alone; on success
`generate_form_from_prompt` returns the exact document it received (this is
the payload handed to the transmission sink), and on failure the error
propagates with the document discarded unmodified. -/
theorem validation_pure_handoff :
    (∀ d : Json, _validate_form_structure d = .ok () →
      generate_form_from_prompt d = .ok d) ∧
    (∀ (d : Json) (e : PyErr), _validate_form_structure d = .error e →
      generate_form_from_prompt d = .error e) := by
  constructor
  · intro d h
    simp [generate_form_from_prompt, h]
  · intro d e h
    simp [generate_form_from_prompt, h]

/-- Witness for `validation_pure_handoff`: the P1 document is handed on
exactly as received. -/
theorem validation_pure_handoff_witness :
    generate_form_from_prompt p1doc = .ok p1doc :=
  validation_pure_handoff.1 p1doc rfl

/-- C9: validation is deterministic with no hidden state: two consecutive
calls on the same document produce the same outcome, and a well-formed
document succeeds on both of two consecutive validations (each call starts
its `section_ref_keys` working set from the empty set, as the source
constructs `set()` locally). -/
theorem validate_deterministic_idempotent :
    ∀ d : Json, (validateTwice d).1 = (validateTwice d).2 ∧
      (_validate_form_structure d = .ok () → validateTwice d = (.ok (), .ok ())) := by
  intro d
  refine ⟨rfl, fun h => ?_⟩
  simp [validateTwice, h]

/-- Witness for `validate_deterministic_idempotent` at the P1 document. -/
theorem validate_deterministic_idempotent_witness :
    validateTwice p1doc = (.ok (), .ok ()) :=
  (validate_deterministic_idempotent p1doc).2 rfl
